import Mathlib

/-!
Verification of the ECG Help Desk record-persistence and access-control
layer.

Shallow embedding of the Express server (`server.js`): the record store,
the token registry and the HTTP request handlers.  External collaborators
(the filesystem, `JSON.parse`, `new Date(string)`) are modelled as explicit
parameters; everything else is translated from the source.

Timestamps are modelled as integer minutes since the Unix epoch, together
with a fixed server timezone offset `tz` in minutes (local time = UTC + tz).
-/

namespace HelpDesk

/-- A stored record, as written by the create handler:
`{id, vendorName, location, phone, issue, date}` where `date` is the string
produced by `new Date().toISOString()`. -/
structure Record where
  id : Int
  vendorName : String
  location : String
  phone : String
  issue : String
  date : String
  deriving Repr, DecidableEq

/-! ## Record store (`readRecords` / `writeRecords`) -/

/-- The state of the backing file as seen by `fs.readFile`: the file may be
absent, present but unreadable (I/O error), or present with string contents. -/
inductive FileRead where
  | absent
  | ioError
  | ok (data : String)
  deriving Repr, DecidableEq

/-- Model of `readRecords`: `try { JSON.parse(await fs.readFile(...)) } catch { return [] }`.
`parse` models `JSON.parse` restricted to well-typed record arrays; `none`
covers both a JSON syntax error and contents that are not a record array. -/
def readRecords (parse : String → Option (List Record)) : FileRead → List Record
  | .absent => []
  | .ioError => []
  | .ok data =>
    match parse data with
    | none => []
    | some records => records

/-! ## Create handler (`POST /api/records`) -/

/-- The request body of a create request; a field is `none` when absent. -/
structure CreateBody where
  vendorName : Option String
  location : Option String
  phone : Option String
  issue : Option String
  deriving Repr, DecidableEq

/-- JavaScript falsiness of an optional string field: `!field` is true
exactly when the field is `undefined` or the empty string. -/
def falsyField : Option String → Bool
  | none => true
  | some s => s = ""

/-- Phone test `phonePattern.test(phone)` for `/^(\+233|0)[0-9]{9}$/`: the string is
`+233` or `0` followed by exactly nine ASCII digits. -/
def phoneTest (s : String) : Bool :=
  match s.data with
  | '+' :: '2' :: '3' :: '3' :: rest => rest.length = 9 && rest.all (·.isDigit)
  | '0' :: rest => rest.length = 9 && rest.all (·.isDigit)
  | _ => false

/-- Whitespace as far as JS string trimming and `parseInt` are concerned
(the WhiteSpace and LineTerminator productions, modelled for ASCII). -/
def jsWhitespace (c : Char) : Bool :=
  c = ' ' || c = '\t' || c = '\n' || c = '\x0d' || c = '\x0b' || c = '\x0c'

/-- Model of `String.prototype.trim`: strip whitespace from both ends. -/
def jsTrim (s : String) : String :=
  ⟨(((s.data.dropWhile jsWhitespace).reverse.dropWhile jsWhitespace).reverse)⟩

/-- Value of `r.id || 0` applied to an integer id: `0 || 0` evaluates to `0`,
any other integer is truthy and evaluates to itself. -/
def orZero (n : Int) : Int := if n = 0 then 0 else n

/-- Id assignment in the create handler:
`records.length > 0 ? Math.max(...records.map(r => r.id || 0)) + 1 : 1`. -/
def nextId (records : List Record) : Int :=
  match records.map (fun r => orZero r.id) with
  | [] => 1
  | x :: xs => xs.foldl max x + 1

/-- Outcome of the create handler: either a 400 rejection (no store access)
or a 201 with the created record and the collection written back. -/
inductive CreateResult where
  | badRequest (message : String)
  | created (record : Record) (written : List Record)
  deriving Repr, DecidableEq

/-- The HTTP status the create handler responds with. -/
def CreateResult.status : CreateResult → Nat
  | .badRequest _ => 400
  | .created _ _ => 201

/-- The `newRecord` object built by the create handler: fresh id, the four
fields trimmed, `date` set to `new Date().toISOString()`. -/
def newRecord (body : CreateBody) (records : List Record) (nowISO : String) :
    Record :=
  { id := nextId records
    vendorName := jsTrim (body.vendorName.getD "")
    location := jsTrim (body.location.getD "")
    phone := jsTrim (body.phone.getD "")
    issue := jsTrim (body.issue.getD "")
    date := nowISO }

/-- Handler `app.post('/api/records')`: the falsy check on the four fields, the phone
regex test, then load, id assignment, append, save.  `records` is the
collection returned by `readRecords`; `nowISO` is `new Date().toISOString()`. -/
def createHandler (body : CreateBody) (records : List Record) (nowISO : String) :
    CreateResult :=
  if falsyField body.vendorName || falsyField body.location ||
      falsyField body.phone || falsyField body.issue then
    .badRequest "All fields are required"
  else if ¬ phoneTest (body.phone.getD "") then
    .badRequest "Invalid Ghanaian phone number format"
  else
    .created (newRecord body records nowISO) (records ++ [newRecord body records nowISO])

/-! ## Token registry (`validTokens`, dev-login, 24h `setTimeout`) -/

/-- Token string `` `dev_token_${Date.now()}_${Math.random().toString(36).substr(2, 9)}` ``:
the token string issued on a successful developer login. -/
def issueTokenString (nowMs : Int) (rand : String) : String :=
  "dev_token_" ++ toString nowMs ++ "_" ++ rand

/-- The token lifetime scheduled by `setTimeout`: `24 * 60 * 60 * 1000` ms. -/
def TOKEN_TTL : Int := 24 * 60 * 60 * 1000

/-- The registry state: each live token paired with the instant at which its
`setTimeout` deletion fires (issuance time + 24h). -/
abbrev TokenState := List (String × Int)

/-- Effect of `validTokens.add(token)` together with scheduling its deletion 24h later. -/
def issue (now : Int) (tok : String) (s : TokenState) : TokenState :=
  (tok, now + TOKEN_TTL) :: s

/-- The entries whose deletion timer has not yet fired at time `now`. -/
def livePart (now : Int) (s : TokenState) : TokenState :=
  s.filter (fun p => now < p.2)

/-- Membership test `validTokens.has(token)` observed at time `now`: membership after every
elapsed timer has deleted its token. -/
def isValid (now : Int) (s : TokenState) (tok : String) : Bool :=
  (livePart now s).any (fun p => p.1 = tok)

/-- Removal `validTokens.delete(token)`: explicit early removal. -/
def revoke (tok : String) (s : TokenState) : TokenState :=
  s.filter (fun p => p.1 ≠ tok)

/-! ## Authorization middleware (`checkDeveloperAuth`) -/

/-- Bearer-token extraction:
`authHeader && authHeader.startsWith('Bearer ') ? authHeader.substring(7) : null`.
A missing header is `none`; a falsy (empty) header also fails `startsWith`. -/
def extractBearer : Option String → Option String
  | none => none
  | some h =>
    match h.data with
    | 'B' :: 'e' :: 'a' :: 'r' :: 'e' :: 'r' :: ' ' :: rest => some ⟨rest⟩
    | _ => none

/-- Outcome of `checkDeveloperAuth`, as a function of the set of currently valid
tokens: `next()` is called unless `!token || !validTokens.has(token)`.
An extracted empty token is falsy and rejected by `!token`. -/
def checkDeveloperAuth (tokens : List String) (authHeader : Option String) : Bool :=
  match extractBearer authHeader with
  | none => false
  | some t => decide (t ≠ "") && tokens.contains t

/-! ## JavaScript `parseInt` (radix argument omitted) -/

/-- Value of a decimal digit character, `none` for a non-digit. -/
def decDigitVal (c : Char) : Option Nat :=
  if '0' ≤ c ∧ c ≤ '9' then some (c.toNat - 48) else none

/-- Value of a hexadecimal digit character, `none` otherwise. -/
def hexDigitVal (c : Char) : Option Nat :=
  if '0' ≤ c ∧ c ≤ '9' then some (c.toNat - 48)
  else if 'a' ≤ c ∧ c ≤ 'f' then some (c.toNat - 87)
  else if 'A' ≤ c ∧ c ≤ 'F' then some (c.toNat - 55)
  else none

/-- Longest prefix of digits of the given radix; `none` when that prefix is
empty (which makes `parseInt` return NaN). -/
def parseDigits (digitVal : Char → Option Nat) (base : Nat) (cs : List Char) :
    Option Nat :=
  let ds := cs.takeWhile (fun c => (digitVal c).isSome)
  if ds.isEmpty then none
  else some (ds.foldl (fun acc c => acc * base + (digitVal c).getD 0) 0)

/-- Model of `parseInt(s)` with the radix argument omitted: skip leading whitespace,
consume an optional sign, detect a `0x`/`0X` prefix (radix 16) or fall back
to radix 10, then parse the longest digit prefix.  `none` models NaN. -/
def parseIntJS (s : String) : Option Int :=
  let cs := s.data.dropWhile jsWhitespace
  let signAndRest : Int × List Char :=
    match cs with
    | '-' :: rest => (-1, rest)
    | '+' :: rest => (1, rest)
    | _ => (1, cs)
  let sign := signAndRest.1
  let body := signAndRest.2
  let mag : Option Nat :=
    match body with
    | '0' :: c :: rest =>
      if c = 'x' || c = 'X' then parseDigits hexDigitVal 16 rest
      else parseDigits decDigitVal 10 body
    | _ => parseDigits decDigitVal 10 body
  mag.map (fun n => sign * (n : Int))

/-! ## Delete handler (`DELETE /api/records/:id`) -/

/-- Strict equality `r.id === recordId` where `recordId` is the `parseInt` result: a strict
comparison with NaN is always false. -/
def idMatches (id : Int) : Option Int → Bool
  | none => false
  | some n => id = n

/-- Outcome of the delete handler. -/
inductive DeleteResult where
  | unauthorized
  | notFound
  | deleted (written : List Record)
  deriving Repr, DecidableEq

/-- The HTTP status the delete handler responds with. -/
def DeleteResult.status : DeleteResult → Nat
  | .unauthorized => 401
  | .notFound => 404
  | .deleted _ => 200

/-- Model of `Array.prototype.findIndex`: index of the first element satisfying the
predicate; `none` models the −1 result. -/
def findIndex (p : Record → Bool) : List Record → Option Nat
  | [] => none
  | r :: rs => if p r then some 0 else (findIndex p rs).map (· + 1)

/-- Handler `app.delete('/api/records/:id')`: auth gate, `parseInt` on the path
parameter, `findIndex` on strict id equality, `splice(index, 1)`, save. -/
def deleteHandler (tokens : List String) (authHeader : Option String)
    (idParam : String) (records : List Record) : DeleteResult :=
  if ¬ checkDeveloperAuth tokens authHeader then .unauthorized
  else
    let recordId := parseIntJS idParam
    match findIndex (fun r => idMatches r.id recordId) records with
    | none => .notFound
    | some i => .deleted (records.eraseIdx i)

/-! ## List handler (`GET /api/records`) -/

/-- Outcome of the list handler. -/
inductive ListResult where
  | unauthorized
  | ok (records : List Record)
  deriving Repr, DecidableEq

/-- The HTTP status the list handler responds with. -/
def ListResult.status : ListResult → Nat
  | .unauthorized => 401
  | .ok _ => 200

/-- Handler `app.get('/api/records')`: auth gate, then return the loaded collection. -/
def listHandler (tokens : List String) (authHeader : Option String)
    (records : List Record) : ListResult :=
  if ¬ checkDeveloperAuth tokens authHeader then .unauthorized
  else .ok records

/-! ## Stats handler (`GET /api/stats`) and the JS `Date` model

A timestamp is an integer number of minutes since the Unix epoch; the server
timezone offset `tz` (minutes, local = UTC + tz) is fixed per process. -/

/-- Civil date `(year, month, day)` of a day count since 1970-01-01
(proleptic Gregorian; the days-to-civil algorithm used by `Date`). -/
def civilFromDays (z : Int) : Int × Int × Int :=
  let z' := z + 719468
  let era := z'.fdiv 146097
  let doe := z'.fmod 146097
  let yoe := (doe - doe.fdiv 1460 + doe.fdiv 36524 - doe.fdiv 146096).fdiv 365
  let y := yoe + era * 400
  let doy := doe - (365 * yoe + yoe.fdiv 4 - yoe.fdiv 100)
  let mp := (5 * doy + 2).fdiv 153
  let d := doy - (153 * mp + 2).fdiv 5 + 1
  let m := mp + (if mp < 10 then 3 else -9)
  (if m ≤ 2 then y + 1 else y, m, d)

/-- The server-local calendar day of a timestamp: two timestamps have equal
`toDateString()` exactly when their local day counts agree. -/
def localDay (tz t : Int) : Int := (t + tz).fdiv 1440

/-- The UTC `(year, month)` of a timestamp: two timestamps have equal
`toISOString().slice(0, 7)` exactly when these pairs agree. -/
def utcYM (t : Int) : Int × Int :=
  let c := civilFromDays (t.fdiv 1440)
  (c.1, c.2.1)

/-- The `records.forEach` counting loop: for each record, `new Date(record.date)`
(`parseDate`; `none` is an Invalid Date), then the `toDateString()` comparison
and the `toISOString().slice(0, 7)` comparison.  On an Invalid Date the
`toDateString()` comparison is false (the string is `"Invalid Date"`) and
`toISOString()` throws a RangeError, modelled as `none`. -/
def statsLoop (parseDate : String → Option Int) (tz now : Int) :
    List Record → Nat → Nat → Option (Nat × Nat)
  | [], todayCount, monthCount => some (todayCount, monthCount)
  | r :: rs, todayCount, monthCount =>
    match parseDate r.date with
    | none => none
    | some t =>
      statsLoop parseDate tz now rs
        (if localDay tz t = localDay tz now then todayCount + 1 else todayCount)
        (if utcYM t = utcYM now then monthCount + 1 else monthCount)

/-- The server-local `(year, month)` of a timestamp (what "same calendar
month as the request" means when read in server-local time). -/
def localYM (tz t : Int) : Int × Int :=
  let c := civilFromDays ((t + tz).fdiv 1440)
  (c.1, c.2.1)

/-- A record's date parses and falls on the same server-local calendar day
as `now` — the records the `today` counter counts. -/
def todayPred (parseDate : String → Option Int) (tz now : Int) (r : Record) :
    Bool :=
  match parseDate r.date with
  | none => false
  | some t => localDay tz t = localDay tz now

/-- A record's date parses and falls in the same UTC calendar month as `now`
— the records the `thisMonth` counter counts. -/
def monthPred (parseDate : String → Option Int) (now : Int) (r : Record) :
    Bool :=
  match parseDate r.date with
  | none => false
  | some t => utcYM t = utcYM now

/-- Outcome of the stats handler. -/
inductive StatsResult where
  | unauthorized
  | serverError
  | ok (total todayCount monthCount : Nat)
  deriving Repr, DecidableEq

/-- The HTTP status the stats handler responds with. -/
def StatsResult.status : StatsResult → Nat
  | .unauthorized => 401
  | .serverError => 500
  | .ok _ _ _ => 200

/-- Handler `app.get('/api/stats')`: auth gate, load, the counting loop (a thrown
RangeError is caught and answered with a 500), then
`{total: records.length, today, thisMonth}`. -/
def statsHandler (tokens : List String) (authHeader : Option String)
    (parseDate : String → Option Int) (tz now : Int) (records : List Record) :
    StatsResult :=
  if ¬ checkDeveloperAuth tokens authHeader then .unauthorized
  else
    match statsLoop parseDate tz now records 0 0 with
    | none => .serverError
    | some (todayCount, monthCount) => .ok records.length todayCount monthCount

/-! ## Mutation sequences over the stored collection

The collection is only ever mutated by the create and delete handlers: a
successful handler persists its `written` list, a failed one writes nothing. -/

/-- A mutating request against the store. -/
inductive Op where
  | create (body : CreateBody) (nowISO : String)
  | delete (tokens : List String) (authHeader : Option String) (idParam : String)

/-- The collection persisted after one request: the `written` list on
success, the previous collection when the request wrote nothing. -/
def applyOp (records : List Record) : Op → List Record
  | .create body nowISO =>
    match createHandler body records nowISO with
    | .badRequest _ => records
    | .created _ written => written
  | .delete tokens authHeader idParam =>
    match deleteHandler tokens authHeader idParam records with
    | .deleted written => written
    | _ => records

/-- The collection persisted after a sequence of requests. -/
def execOps (start : List Record) (ops : List Op) : List Record :=
  ops.foldl applyOp start

end HelpDesk

section Scratch
open HelpDesk

example : phoneTest "+233501234567" = true := by decide
example : phoneTest "0501234567" = true := by decide
example : phoneTest "12345" = false := by decide
example : phoneTest "+1234567890" = false := by decide

example :
    (createHandler ⟨some " ", some "Accra", some "0501234567", some "meter fault"⟩
      [] "D").status = 201 := by decide

example : parseIntJS "12abc" = some 12 := by decide
example : parseIntJS "0x10" = some 16 := by decide
example : parseIntJS " 12" = some 12 := by decide
example : parseIntJS "-7" = some (-7) := by decide
example : parseIntJS "abc" = none := by decide
example : parseIntJS "" = none := by decide
example : parseIntJS "0x" = none := by decide

example : civilFromDays 30 = (1970, 1, 31) := by decide
example : civilFromDays 31 = (1970, 2, 1) := by decide
example : civilFromDays 19904 = (2024, 6, 30) := by decide

-- C5 counterexample shape: tz = +600 (UTC+10); now is local Feb 1 1970 05:00
-- (UTC Jan 31 19:00, minute 44340); record at local Feb 1 11:00
-- (UTC Feb 1 01:00, minute 44700): same local day, different UTC month.
example : localDay 600 44700 = localDay 600 44340 := by decide
example : utcYM 44700 ≠ utcYM 44340 := by decide

end Scratch

namespace HelpDesk

/-! ## Helper lemmas -/

lemma orZero_eq (n : Int) : orZero n = n := by
  unfold orZero
  split <;> omega

lemma le_foldl_max_init (xs : List Int) (x : Int) : x ≤ xs.foldl max x := by
  induction xs generalizing x with
  | nil => simp
  | cons y ys ih => exact le_trans (le_max_left x y) (ih (max x y))

lemma le_foldl_max_of_mem {xs : List Int} {a : Int} (x : Int) (ha : a ∈ xs) :
    a ≤ xs.foldl max x := by
  induction xs generalizing x with
  | nil => cases ha
  | cons y ys ih =>
    rcases List.mem_cons.mp ha with h | h
    · subst h
      exact le_trans (le_max_right x a) (le_foldl_max_init ys _)
    · exact ih _ h

lemma nextId_cons (r0 : Record) (rs : List Record) :
    nextId (r0 :: rs) = (rs.map fun r => r.id).foldl max r0.id + 1 := by
  have hmap : rs.map (fun r => orZero r.id) = rs.map fun r => r.id := by
    simp [orZero_eq]
  simp [nextId, hmap, orZero_eq]

lemma id_lt_nextId {records : List Record} {r : Record} (hr : r ∈ records) :
    r.id < nextId records := by
  cases records with
  | nil => cases hr
  | cons r0 rs =>
    rw [nextId_cons]
    rcases List.mem_cons.mp hr with h | h
    · subst h
      have := le_foldl_max_init (rs.map fun x => x.id) r.id
      omega
    · have : r.id ∈ rs.map fun x => x.id := List.mem_map_of_mem _ h
      have := le_foldl_max_of_mem r0.id this
      omega

/-! ## C1 -/

/-- C1: a create request whose four fields pass validation is answered with
201; the created record's id is `max(existing ids) + 1` over the loaded
collection (1 when it is empty), its date is the server timestamp, it is
appended at the end of the collection, and the full extended collection is
what gets persisted. -/
theorem createHandler_valid_request (body : CreateBody) (records : List Record)
    (nowISO : String)
    (hv : falsyField body.vendorName = false)
    (hl : falsyField body.location = false)
    (hp : falsyField body.phone = false)
    (hi : falsyField body.issue = false)
    (hphone : phoneTest (body.phone.getD "") = true) :
    createHandler body records nowISO =
      .created (newRecord body records nowISO)
        (records ++ [newRecord body records nowISO]) ∧
    (createHandler body records nowISO).status = 201 ∧
    (newRecord body records nowISO).date = nowISO ∧
    (records = [] → (newRecord body records nowISO).id = 1) ∧
    (∀ r0 rs, records = r0 :: rs →
      (newRecord body records nowISO).id =
        (rs.map fun r => r.id).foldl max r0.id + 1) := by
  have hmain : createHandler body records nowISO =
      .created (newRecord body records nowISO)
        (records ++ [newRecord body records nowISO]) := by
    simp [createHandler, hv, hl, hp, hi, hphone]
  refine ⟨hmain, ?_, rfl, ?_, ?_⟩
  · rw [hmain]
    rfl
  · intro h
    subst h
    rfl
  · intro r0 rs h
    subst h
    simp [newRecord, nextId_cons]

/-- Witness for C1 at a concrete valid request over a two-record collection. -/
theorem createHandler_valid_request_witness :
    (createHandler
        ⟨some "Ama Mensah", some "Accra", some "0501234567", some "No power"⟩
        [⟨1, "a", "b", "c", "d", "e"⟩, ⟨5, "a", "b", "c", "d", "e"⟩]
        "1970-02-01T01:00:00.000Z").status = 201 :=
  (createHandler_valid_request
    ⟨some "Ama Mensah", some "Accra", some "0501234567", some "No power"⟩
    [⟨1, "a", "b", "c", "d", "e"⟩, ⟨5, "a", "b", "c", "d", "e"⟩]
    "1970-02-01T01:00:00.000Z"
    (by decide) (by decide) (by decide) (by decide) (by decide)).2.1

/-! ## C2 -/

lemma createHandler_badRequest_indep (body : CreateBody)
    (records records' : List Record) (nowISO nowISO' : String)
    (h : (createHandler body records nowISO).status = 400) :
    createHandler body records nowISO = createHandler body records' nowISO' ∧
    ∀ rec written, createHandler body records nowISO ≠ .created rec written := by
  by_cases h1 : (falsyField body.vendorName || falsyField body.location ||
      falsyField body.phone || falsyField body.issue) = true
  · constructor
    · simp [createHandler, h1]
    · intro rec written hEq
      simp [createHandler, h1] at hEq
  · by_cases h2 : phoneTest (body.phone.getD "") = true
    · exfalso
      simp [createHandler, h1, h2, CreateResult.status] at h
    · constructor
      · simp [createHandler, h1, h2]
      · intro rec written hEq
        simp [createHandler, h1, h2] at hEq

/-- C2 as stated fails on the code: the required-fields check tests JS
falsiness (missing or empty string), not emptiness after trimming.  A
whitespace-only `vendorName` is truthy, so this request — whose
`vendorName` is empty after trimming — is accepted with 201, not rejected
with 400. -/
theorem createHandler_whitespace_counterexample :
    (createHandler
        ⟨some " ", some "Accra", some "0501234567", some "meter fault"⟩
        [] "1970-01-01T00:00:00.000Z").status = 201 ∧
    jsTrim " " = "" ∧
    (createHandler
        ⟨some " ", some "Accra", some "0501234567", some "meter fault"⟩
        [] "1970-01-01T00:00:00.000Z").status ≠ 400 := by decide

/-- C2 amended: the create handler rejects with 400, independently of the
stored collection and without persisting anything, exactly when one of the
four fields is missing or the empty string (falsy, before any trimming), or
the phone fails the format regex; "+233501234567" and "0501234567" pass the
phone test while "12345" and "+1234567890" fail it. -/
theorem createHandler_validation_iff (body : CreateBody)
    (records records' : List Record) (nowISO nowISO' : String) :
    ((createHandler body records nowISO).status = 400 ↔
      (falsyField body.vendorName = true ∨ falsyField body.location = true ∨
        falsyField body.phone = true ∨ falsyField body.issue = true ∨
        phoneTest (body.phone.getD "") = false)) ∧
    ((createHandler body records nowISO).status = 400 →
      createHandler body records nowISO = createHandler body records' nowISO' ∧
      ∀ rec written, createHandler body records nowISO ≠ .created rec written) ∧
    phoneTest "+233501234567" = true ∧
    phoneTest "0501234567" = true ∧
    phoneTest "12345" = false ∧
    phoneTest "+1234567890" = false := by
  refine ⟨?_, fun h => createHandler_badRequest_indep body records records'
    nowISO nowISO' h, by decide, by decide, by decide, by decide⟩
  by_cases h1 : (falsyField body.vendorName || falsyField body.location ||
      falsyField body.phone || falsyField body.issue) = true
  · simp only [createHandler, h1, if_true, CreateResult.status]
    simp only [Bool.or_eq_true] at h1
    simp only [true_iff]
    tauto
  · by_cases h2 : phoneTest (body.phone.getD "") = true
    · simp only [createHandler, h1, h2, CreateResult.status]
      simp only [Bool.or_eq_true] at h1
      push_neg at h1
      obtain ⟨⟨⟨hv, hl⟩, hp⟩, hi⟩ := h1
      simp [Bool.not_eq_true] at hv hl hp hi
      simp [hv, hl, hp, hi, h2]
    · have h2' : phoneTest (body.phone.getD "") = false := by
        revert h2
        cases phoneTest (body.phone.getD "") <;> simp
      simp only [createHandler, h1, h2', CreateResult.status]
      simp

/-- Witness for C2's amended theorem: a request with a missing `vendorName`
is rejected with 400. -/
theorem createHandler_validation_iff_witness :
    (createHandler ⟨none, some "Accra", some "0501234567", some "x"⟩
      [] "D").status = 400 :=
  (createHandler_validation_iff ⟨none, some "Accra", some "0501234567", some "x"⟩
    [] [] "D" "D").1.mpr (Or.inl (by decide))

/-! ## C3 -/

/-- C3: for each privileged handler (list, delete, stats), a request whose
authorization header is absent, lacks the Bearer scheme, or carries a token
outside the valid set is rejected with 401 regardless of the stored
collection; otherwise the gate passes (shown for the list handler, which
then returns the collection).  The hypothesis that the empty string is not a
valid token holds for the real registry: every issued token starts with
`dev_token_` (last conjunct). -/
theorem checkDeveloperAuth_gate (tokens : List String)
    (authHeader : Option String) (hempty : "" ∉ tokens) :
    (checkDeveloperAuth tokens authHeader = true ↔
      ∃ t, extractBearer authHeader = some t ∧ t ∈ tokens) ∧
    (checkDeveloperAuth tokens authHeader = false →
      ∀ (records : List Record) (parseDate : String → Option Int)
        (tz now : Int) (idParam : String),
        listHandler tokens authHeader records = .unauthorized ∧
        (listHandler tokens authHeader records).status = 401 ∧
        deleteHandler tokens authHeader idParam records = .unauthorized ∧
        (deleteHandler tokens authHeader idParam records).status = 401 ∧
        statsHandler tokens authHeader parseDate tz now records =
          .unauthorized ∧
        (statsHandler tokens authHeader parseDate tz now records).status =
          401) ∧
    (checkDeveloperAuth tokens authHeader = true →
      ∀ records : List Record,
        listHandler tokens authHeader records = .ok records) ∧
    (∀ (nowMs : Int) (rand : String), issueTokenString nowMs rand ≠ "") := by
  refine ⟨?_, ?_, ?_, ?_⟩
  · unfold checkDeveloperAuth
    cases hb : extractBearer authHeader with
    | none => simp
    | some t =>
      simp only [Bool.and_eq_true, decide_eq_true_eq, Option.some.injEq]
      constructor
      · rintro ⟨-, hc⟩
        exact ⟨t, rfl, by simpa using hc⟩
      · rintro ⟨t', ht', hmem⟩
        subst ht'
        exact ⟨fun he => hempty (he ▸ hmem), by simpa using hmem⟩
  · intro h records parseDate tz now idParam
    simp [listHandler, deleteHandler, statsHandler, h, ListResult.status,
      DeleteResult.status, StatsResult.status]
  · intro h records
    simp [listHandler, h]
  · intro nowMs rand h
    have h2 := congrArg String.length h
    simp only [issueTokenString, String.length_append] at h2
    have hd : "dev_token_".length = 10 := by decide
    have hu : "_".length = 1 := by decide
    have he : ("" : String).length = 0 := by decide
    omega

/-- Witness for C3 at a concrete valid token and header. -/
theorem checkDeveloperAuth_gate_witness :
    checkDeveloperAuth ["dev_token_1_a"] (some "Bearer dev_token_1_a") =
      true :=
  (checkDeveloperAuth_gate ["dev_token_1_a"] (some "Bearer dev_token_1_a")
    (by decide)).1.mpr ⟨"dev_token_1_a", by decide, by decide⟩

/-! ## Inversion and search lemmas for the mutating handlers -/

lemma createHandler_created_inv {body : CreateBody} {records : List Record}
    {nowISO : String} {rec : Record} {written : List Record}
    (h : createHandler body records nowISO = .created rec written) :
    rec = newRecord body records nowISO ∧
    written = records ++ [newRecord body records nowISO] := by
  by_cases h1 : (falsyField body.vendorName || falsyField body.location ||
      falsyField body.phone || falsyField body.issue) = true
  · simp [createHandler, h1] at h
  · by_cases h2 : phoneTest (body.phone.getD "") = true
    · simp [createHandler, h1, h2] at h
      exact ⟨h.1.symm, h.2.symm⟩
    · simp [createHandler, h1, h2] at h

lemma deleteHandler_deleted_inv {tokens : List String}
    {authHeader : Option String} {idParam : String} {records written : List Record}
    (h : deleteHandler tokens authHeader idParam records = .deleted written) :
    ∃ i, written = records.eraseIdx i := by
  by_cases h1 : checkDeveloperAuth tokens authHeader = true
  · simp only [deleteHandler, h1, not_true, if_false] at h
    revert h
    cases hf : findIndex (fun r => idMatches r.id (parseIntJS idParam)) records with
    | none => intro h; exact nomatch h
    | some i =>
      intro h
      injection h with hw
      exact ⟨i, hw.symm⟩
  · simp [deleteHandler, h1] at h

lemma findIndex_none_iff {p : Record → Bool} {l : List Record} :
    findIndex p l = none ↔ ∀ r ∈ l, p r = false := by
  induction l with
  | nil => simp [findIndex]
  | cons r rs ih =>
    by_cases hp : p r = true
    · simp [findIndex, hp]
    · have hp' : p r = false := by
        revert hp
        cases p r <;> simp
      simp [findIndex, hp', ih]

lemma findIndex_some {p : Record → Bool} {l : List Record} {i : Nat}
    (h : findIndex p l = some i) :
    ∃ hi : i < l.length, p (l.get ⟨i, hi⟩) = true := by
  induction l generalizing i with
  | nil => simp [findIndex] at h
  | cons r rs ih =>
    by_cases hp : p r = true
    · simp [findIndex, hp] at h
      subst h
      exact ⟨by simp, by simpa using hp⟩
    · have hp' : p r = false := by
        revert hp
        cases p r <;> simp
      simp [findIndex, hp'] at h
      obtain ⟨j, hj, hji⟩ := h
      obtain ⟨hjlt, hpj⟩ := ih hj
      subst hji
      exact ⟨Nat.succ_lt_succ hjlt, by simpa using hpj⟩

/-! ## C4 -/

lemma nextId_not_mem (records : List Record) :
    nextId records ∉ records.map fun r => r.id := by
  intro hmem
  obtain ⟨r, hr, hid⟩ := List.mem_map.mp hmem
  have := id_lt_nextId hr
  omega

lemma applyOp_nodup {records : List Record}
    (h : (records.map fun r => r.id).Nodup) (op : Op) :
    ((applyOp records op).map fun r => r.id).Nodup := by
  cases op with
  | create body nowISO =>
    cases hc : createHandler body records nowISO with
    | badRequest m =>
      simp only [applyOp, hc]
      exact h
    | created rec written =>
      simp only [applyOp, hc]
      obtain ⟨-, hw⟩ := createHandler_created_inv hc
      subst hw
      simp only [List.map_append, List.map_cons, List.map_nil]
      apply List.Nodup.append h (List.nodup_singleton _)
      intro x hx hxs
      have hxeq : x = nextId records := by
        simpa [newRecord] using hxs
      subst hxeq
      exact nextId_not_mem records hx
  | delete tokens authHeader idParam =>
    cases hd : deleteHandler tokens authHeader idParam records with
    | unauthorized =>
      simp only [applyOp, hd]
      exact h
    | notFound =>
      simp only [applyOp, hd]
      exact h
    | deleted written =>
      simp only [applyOp, hd]
      obtain ⟨i, hw⟩ := deleteHandler_deleted_inv hd
      subst hw
      exact h.sublist ((records.eraseIdx_sublist i).map _)

/-- C4: starting from the empty collection, any sequence of create and
delete requests (successful or not — failed requests leave the collection
unchanged) yields a collection whose id values are pairwise distinct. -/
theorem execOps_nodup_ids (ops : List Op) :
    ((execOps [] ops).map fun r => r.id).Nodup := by
  have general : ∀ (l : List Op) (start : List Record),
      (start.map fun r => r.id).Nodup →
      ((execOps start l).map fun r => r.id).Nodup := by
    intro l
    induction l with
    | nil =>
      intro start h
      simpa [execOps] using h
    | cons op rest ih =>
      intro start h
      exact ih (applyOp start op) (applyOp_nodup h op)
  exact general ops [] (by simp)

/-! ## C6 and C9: the delete handler -/

lemma deleteHandler_gate {tokens : List String} {authHeader : Option String}
    (idParam : String) (records : List Record)
    (hauth : checkDeveloperAuth tokens authHeader = true) :
    deleteHandler tokens authHeader idParam records =
      match findIndex (fun r => idMatches r.id (parseIntJS idParam)) records with
      | none => .notFound
      | some i => .deleted (records.eraseIdx i) := by
  simp [deleteHandler, hauth]

lemma deleteHandler_found {tokens : List String} {authHeader : Option String}
    {idParam : String} {records : List Record} {n : Int}
    (hauth : checkDeveloperAuth tokens authHeader = true)
    (hparse : parseIntJS idParam = some n)
    (hmem : ∃ r ∈ records, r.id = n) :
    ∃ i, ∃ hi : i < records.length,
      (records.get ⟨i, hi⟩).id = n ∧
      deleteHandler tokens authHeader idParam records =
        .deleted (records.eraseIdx i) := by
  cases hf : findIndex (fun r => idMatches r.id (parseIntJS idParam)) records with
  | none =>
    exfalso
    obtain ⟨r, hr, hid⟩ := hmem
    have := findIndex_none_iff.mp hf r hr
    rw [hparse] at this
    simp [idMatches, hid] at this
  | some i =>
    obtain ⟨hi, hpi⟩ := findIndex_some hf
    rw [hparse] at hpi
    refine ⟨i, hi, by simpa [idMatches] using hpi, ?_⟩
    rw [deleteHandler_gate idParam records hauth, hf]

lemma deleteHandler_missing {tokens : List String} {authHeader : Option String}
    {idParam : String} {records : List Record} {n : Int}
    (hauth : checkDeveloperAuth tokens authHeader = true)
    (hparse : parseIntJS idParam = some n)
    (hall : ∀ r ∈ records, r.id ≠ n) :
    deleteHandler tokens authHeader idParam records = .notFound := by
  have hf : findIndex (fun r => idMatches r.id (parseIntJS idParam)) records =
      none := by
    apply findIndex_none_iff.mpr
    intro r hr
    rw [hparse]
    simp [idMatches]
    exact hall r hr
  rw [deleteHandler_gate idParam records hauth, hf]

lemma deleteHandler_nan {tokens : List String} {authHeader : Option String}
    {idParam : String} (records : List Record)
    (hauth : checkDeveloperAuth tokens authHeader = true)
    (hparse : parseIntJS idParam = none) :
    deleteHandler tokens authHeader idParam records = .notFound := by
  have hf : findIndex (fun r => idMatches r.id (parseIntJS idParam)) records =
      none := by
    apply findIndex_none_iff.mpr
    intro r hr
    rw [hparse]
    simp [idMatches]
  rw [deleteHandler_gate idParam records hauth, hf]

/-- C6: an authorized delete request whose id parameter parses to `n`
removes the first record whose id is `n` when one exists — persisting the
collection with that record's position spliced out, one element shorter —
and answers 200; when no record has id `n` it answers 404 and persists
nothing. -/
theorem deleteHandler_found_or_404 (tokens : List String)
    (authHeader : Option String) (idParam : String) (records : List Record)
    (n : Int)
    (hauth : checkDeveloperAuth tokens authHeader = true)
    (hparse : parseIntJS idParam = some n) :
    ((∃ r ∈ records, r.id = n) →
      ∃ i, ∃ hi : i < records.length,
        (records.get ⟨i, hi⟩).id = n ∧
        deleteHandler tokens authHeader idParam records =
          .deleted (records.eraseIdx i) ∧
        (deleteHandler tokens authHeader idParam records).status = 200 ∧
        (records.eraseIdx i).length + 1 = records.length) ∧
    ((∀ r ∈ records, r.id ≠ n) →
      deleteHandler tokens authHeader idParam records = .notFound ∧
      (deleteHandler tokens authHeader idParam records).status = 404 ∧
      ∀ written, deleteHandler tokens authHeader idParam records ≠
        .deleted written) := by
  constructor
  · intro hmem
    obtain ⟨i, hi, hid, heq⟩ := deleteHandler_found hauth hparse hmem
    refine ⟨i, hi, hid, heq, ?_, ?_⟩
    · rw [heq]
      rfl
    · rw [List.length_eraseIdx_of_lt hi]
      omega
  · intro hall
    have heq := deleteHandler_missing hauth hparse hall
    refine ⟨heq, by rw [heq]; rfl, ?_⟩
    intro written hEq
    rw [heq] at hEq
    exact nomatch hEq

/-- Witness for C6: deleting id 2 from a singleton collection holding id 2. -/
theorem deleteHandler_found_or_404_witness :
    deleteHandler ["t"] (some "Bearer t") "2"
      [⟨2, "a", "b", "c", "d", "e"⟩] = .deleted [] := by
  obtain ⟨hfound, -⟩ := deleteHandler_found_or_404 ["t"] (some "Bearer t") "2"
    [⟨2, "a", "b", "c", "d", "e"⟩] 2 (by decide) (by decide)
  obtain ⟨i, hi, -, heq, -, -⟩ :=
    hfound ⟨⟨2, "a", "b", "c", "d", "e"⟩, by simp, rfl⟩
  have hlen : i < 1 := by simpa using hi
  have hz : i = 0 := by omega
  subst hz
  exact heq

/-- C9 as stated fails on the code: `parseInt` recognises a `0x` prefix as
hexadecimal, so the parameter "0x10" — whose leading integer prefix is 0 —
deletes the record with id 16, not the record with id 0. -/
theorem deleteHandler_hex_counterexample :
    parseIntJS "0x10" = some 16 ∧
    deleteHandler ["t"] (some "Bearer t") "0x10"
      [⟨16, "a", "b", "c", "d", "e"⟩, ⟨0, "a", "b", "c", "d", "e"⟩] =
      .deleted [⟨0, "a", "b", "c", "d", "e"⟩] := by decide

/-- C9 amended: the id parameter is interpreted with JavaScript `parseInt`
semantics — leading whitespace skipped, an optional sign, a `0x`/`0X` prefix
read as hexadecimal, otherwise the longest leading decimal-digit prefix (so
"12abc" deletes id 12) — and a parameter yielding NaN makes the authorized
handler answer 404 (never a 400 validation error). -/
theorem deleteHandler_parseInt_semantics (tokens : List String)
    (authHeader : Option String) (idParam : String) (records : List Record)
    (hauth : checkDeveloperAuth tokens authHeader = true) :
    (parseIntJS idParam = none →
      deleteHandler tokens authHeader idParam records = .notFound ∧
      (deleteHandler tokens authHeader idParam records).status = 404 ∧
      (deleteHandler tokens authHeader idParam records).status ≠ 400) ∧
    (∀ n, parseIntJS idParam = some n →
      ((∃ r ∈ records, r.id = n) →
        ∃ i, ∃ hi : i < records.length,
          (records.get ⟨i, hi⟩).id = n ∧
          deleteHandler tokens authHeader idParam records =
            .deleted (records.eraseIdx i)) ∧
      ((∀ r ∈ records, r.id ≠ n) →
        deleteHandler tokens authHeader idParam records = .notFound)) ∧
    parseIntJS "12abc" = some 12 ∧
    parseIntJS " -42abc" = some (-42) ∧
    parseIntJS "0x1A" = some 26 ∧
    parseIntJS "abc" = none := by
  refine ⟨?_, ?_, by decide, by decide, by decide, by decide⟩
  · intro hparse
    have heq := deleteHandler_nan records hauth hparse
    refine ⟨heq, by rw [heq]; rfl, by rw [heq]; decide⟩
  · intro n hparse
    exact ⟨fun hmem => deleteHandler_found hauth hparse hmem,
      fun hall => deleteHandler_missing hauth hparse hall⟩

/-- Witness for C9's amended theorem: an unparseable id parameter yields 404. -/
theorem deleteHandler_parseInt_semantics_witness :
    deleteHandler ["t"] (some "Bearer t") "abc"
      [⟨1, "a", "b", "c", "d", "e"⟩] = .notFound :=
  ((deleteHandler_parseInt_semantics ["t"] (some "Bearer t") "abc"
    [⟨1, "a", "b", "c", "d", "e"⟩] (by decide)).1 (by decide)).1

/-! ## C5 and C10: the stats handler -/

lemma statsLoop_ok (parseDate : String → Option Int) (tz now : Int) :
    ∀ (records : List Record) (tc mc : Nat),
    (∀ r ∈ records, parseDate r.date ≠ none) →
    statsLoop parseDate tz now records tc mc =
      some (tc + records.countP (todayPred parseDate tz now),
        mc + records.countP (monthPred parseDate now)) := by
  intro records
  induction records with
  | nil =>
    intro tc mc _
    simp [statsLoop]
  | cons r rs ih =>
    intro tc mc hall
    cases hp : parseDate r.date with
    | none => exact absurd hp (hall r (by simp))
    | some t =>
      simp only [statsLoop, hp]
      rw [ih _ _ (fun r' hr' => hall r' (List.mem_cons_of_mem _ hr'))]
      simp only [List.countP_cons, todayPred, monthPred, hp]
      split_ifs <;> simp_all <;> omega

lemma statsLoop_error (parseDate : String → Option Int) (tz now : Int) :
    ∀ (records : List Record) (tc mc : Nat),
    (∃ r ∈ records, parseDate r.date = none) →
    statsLoop parseDate tz now records tc mc = none := by
  intro records
  induction records with
  | nil =>
    rintro tc mc ⟨r, hr, -⟩
    cases hr
  | cons r rs ih =>
    rintro tc mc ⟨r', hr', hp'⟩
    rcases List.mem_cons.mp hr' with h | h
    · subst h
      simp [statsLoop, hp']
    · cases hp : parseDate r.date with
      | none => simp [statsLoop, hp]
      | some t =>
        simp only [statsLoop, hp]
        exact ih _ _ ⟨r', h, hp'⟩

lemma countP_le_countP {p q : Record → Bool} {l : List Record}
    (h : ∀ r ∈ l, p r = true → q r = true) : l.countP p ≤ l.countP q := by
  induction l with
  | nil => simp
  | cons r rs ih =>
    have hrs := ih fun x hx => h x (List.mem_cons_of_mem _ hx)
    rw [List.countP_cons, List.countP_cons]
    have hif : (if p r then 1 else 0) ≤ (if q r then 1 else 0) := by
      cases hpr : p r with
      | false => simp
      | true => simp [h r (by simp) hpr]
    omega

lemma utcYM_eq_of_day_eq {t u : Int} (h : t.fdiv 1440 = u.fdiv 1440) :
    utcYM t = utcYM u := by
  unfold utcYM
  rw [h]

/-- The record used in the C5 counterexample: its date string parses to
minute 44700 since the epoch (1970-02-01T01:00Z, i.e. Feb 1 11:00 at
UTC+10). -/
def c5record : Record := ⟨1, "v", "l", "p", "i", "RDATE"⟩

/-- Model of `new Date(string)` for the C5 counterexample. -/
def c5parse : String → Option Int :=
  fun s => if s = "RDATE" then some 44700 else none

/-- C5 as stated fails on the code: `today` compares server-local calendar
days (`toDateString`) but `thisMonth` compares UTC months
(`toISOString().slice(0, 7)`).  On a UTC+10 server (tz = 600) at minute
44340 (local Feb 1 1970, 05:00), the record dated minute 44700 (local
Feb 1 1970, 11:00) lies on the request's local calendar day and in its
local calendar month, yet the handler reports `today = 1` and
`thisMonth = 0`: a record counted in `today` is not counted in `thisMonth`,
and the same-calendar-month record is not counted either. -/
theorem statsHandler_month_counterexample :
    statsHandler ["t"] (some "Bearer t") c5parse 600 44340 [c5record] =
      .ok 1 1 0 ∧
    localDay 600 44700 = localDay 600 44340 ∧
    localYM 600 44700 = localYM 600 44340 ∧
    utcYM 44700 ≠ utcYM 44340 := by decide

/-- C5 amended: an authorized stats request reports `total` as the
collection size, `today` as the number of records on the same server-local
calendar day as the request, and `thisMonth` as the number of records in the
same UTC calendar month as the request (all record dates assumed parseable);
when the server timezone is UTC (tz = 0) every record counted in `today` is
also counted in `thisMonth`, but not in general. -/
theorem statsHandler_counts (tokens : List String)
    (authHeader : Option String) (parseDate : String → Option Int)
    (tz now : Int) (records : List Record)
    (hauth : checkDeveloperAuth tokens authHeader = true)
    (hdates : ∀ r ∈ records, parseDate r.date ≠ none) :
    statsHandler tokens authHeader parseDate tz now records =
      .ok records.length (records.countP (todayPred parseDate tz now))
        (records.countP (monthPred parseDate now)) ∧
    (tz = 0 →
      records.countP (todayPred parseDate 0 now) ≤
        records.countP (monthPred parseDate now)) := by
  constructor
  · simp [statsHandler, hauth, statsLoop_ok parseDate tz now records 0 0 hdates]
  · intro htz
    apply countP_le_countP
    intro r hr hp
    revert hp
    unfold todayPred monthPred
    cases hrd : parseDate r.date with
    | none => simp
    | some t =>
      simp only [decide_eq_true_eq]
      intro hday
      apply utcYM_eq_of_day_eq
      simpa [localDay] using hday

/-- Witness for C5's amended theorem on a two-record collection at UTC. -/
theorem statsHandler_counts_witness :
    statsHandler ["t"] (some "Bearer t") c5parse 0 44700
      [c5record, c5record] = .ok 2 2 2 := by
  have h := (statsHandler_counts ["t"] (some "Bearer t") c5parse 0 44700
    [c5record, c5record] (by decide)
    (fun r hr => by
      rcases List.mem_cons.mp hr with h | h
      · subst h
        decide
      · simp at h
        subst h
        decide)).1
  rw [h]
  decide

/-- C10: when some stored record's date does not parse, the counting loop
reaches it, `toISOString()` throws, the catch block answers 500: an
authorized stats request over such a collection reports a server error
rather than counts. -/
theorem statsHandler_invalid_date_500 (tokens : List String)
    (authHeader : Option String) (parseDate : String → Option Int)
    (tz now : Int) (records : List Record)
    (hauth : checkDeveloperAuth tokens authHeader = true)
    (hbad : ∃ r ∈ records, parseDate r.date = none) :
    statsHandler tokens authHeader parseDate tz now records = .serverError ∧
    (statsHandler tokens authHeader parseDate tz now records).status =
      500 := by
  have h := statsLoop_error parseDate tz now records 0 0 hbad
  constructor <;> simp [statsHandler, hauth, h, StatsResult.status]

/-- Witness for C10 at a concrete collection whose single record has an
unparseable date. -/
theorem statsHandler_invalid_date_500_witness :
    statsHandler ["t"] (some "Bearer t") (fun _ => none) 0 0
      [⟨1, "a", "b", "c", "d", "nonsense"⟩] = .serverError :=
  (statsHandler_invalid_date_500 ["t"] (some "Bearer t") (fun _ => none) 0 0
    [⟨1, "a", "b", "c", "d", "nonsense"⟩] (by decide)
    ⟨⟨1, "a", "b", "c", "d", "nonsense"⟩, by simp, rfl⟩).1

/-! ## C7: the record store's load -/

/-- C7: `readRecords` never fails its caller — an absent file, an I/O error,
or unparseable contents all yield the empty collection, and parseable
contents are returned as parsed. -/
theorem readRecords_total (parse : String → Option (List Record))
    (fr : FileRead) :
    (fr = .absent → readRecords parse fr = []) ∧
    (fr = .ioError → readRecords parse fr = []) ∧
    (∀ s, fr = .ok s → parse s = none → readRecords parse fr = []) ∧
    (∀ s v, fr = .ok s → parse s = some v → readRecords parse fr = v) := by
  refine ⟨?_, ?_, ?_, ?_⟩
  · rintro rfl
    rfl
  · rintro rfl
    rfl
  · rintro s rfl hp
    simp [readRecords, hp]
  · rintro s v rfl hp
    simp [readRecords, hp]

/-- Witness for C7: a corrupt (unparseable) file reads as the empty
collection. -/
theorem readRecords_total_witness :
    readRecords (fun _ => none) (.ok "not json") = [] :=
  (readRecords_total (fun _ => none) (.ok "not json")).2.2.1 "not json" rfl rfl

/-! ## C8: the token lifetime window -/

/-- C8: a freshly issued token is valid immediately after issuance, stays
valid at any instant of the 24-hour window unless explicitly removed
(revocation invalidates it), and is invalid at and after the instant its
24-hour deletion timer fires. -/
theorem token_lifecycle (s : TokenState) (now t : Int) (tok : String)
    (hfresh : ∀ p ∈ s, p.1 ≠ tok) :
    isValid now (issue now tok s) tok = true ∧
    (now ≤ t → t < now + TOKEN_TTL → isValid t (issue now tok s) tok = true) ∧
    (now + TOKEN_TTL ≤ t → isValid t (issue now tok s) tok = false) ∧
    isValid t (revoke tok (issue now tok s)) tok = false := by
  refine ⟨?_, ?_, ?_, ?_⟩
  · simp only [isValid, livePart, issue, List.any_eq_true, List.mem_filter]
    refine ⟨(tok, now + TOKEN_TTL), ⟨by simp, ?_⟩, by simp⟩
    simp only [decide_eq_true_eq]
    have : (0 : Int) < TOKEN_TTL := by norm_num [TOKEN_TTL]
    omega
  · intro h1 h2
    simp only [isValid, livePart, issue, List.any_eq_true, List.mem_filter]
    exact ⟨(tok, now + TOKEN_TTL), ⟨by simp, by simp [h2]⟩, by simp⟩
  · intro h1
    simp only [isValid, livePart, issue]
    rw [List.any_eq_false]
    intro p hp
    rw [List.mem_filter] at hp
    obtain ⟨hmem, htime⟩ := hp
    simp only [decide_eq_true_eq] at htime
    rcases List.mem_cons.mp hmem with h | h
    · subst h
      simp only at htime
      exact absurd htime (by omega)
    · simp [hfresh p h]
  · simp only [isValid, livePart, revoke, issue]
    rw [List.any_eq_false]
    intro p hp
    rw [List.mem_filter] at hp
    obtain ⟨hmem, -⟩ := hp
    rw [List.mem_filter] at hmem
    obtain ⟨-, hne⟩ := hmem
    simp only [decide_eq_true_eq] at hne
    simp [hne]

/-- Witness for C8 with a fresh token over a one-token registry. -/
theorem token_lifecycle_witness :
    isValid 0 (issue 0 "dev_token_0_x" [("dev_token_5_y", 99)])
      "dev_token_0_x" = true :=
  (token_lifecycle [("dev_token_5_y", 99)] 0 50 "dev_token_0_x"
    (by decide)).1

end HelpDesk
